import Mathlib

/-!
Verification of the same-domain web crawler in `src/main.py` (class `WebCrawler`).

The embedding is shallow:
* `urlsplitCore`, `urlunsplitCore`, `urljoin`, `netlocOf` model the functions of
  CPython's `urllib.parse` that `main.py` calls (`urlparse` is used by the source
  only for its `netloc` field, which coincides with `urlsplit`'s).  The model
  works on `List Char`; it omits urllib's leading/trailing-whitespace stripping
  and the `ValueError` raised on unbalanced brackets in a netloc (no URL in any
  claim exercises either), and `Char.toLower` models Python `str.lower` on the
  ASCII range, which covers every string appearing in the claims.
* The HTTP transport (`requests.get`) and the HTML parser (`BeautifulSoup`,
  `get_text`, `find_all`) are the external collaborators of the spec; they are
  modelled by an environment `Env` giving, per URL, the fetch outcome (`none` =
  the call raised) and, per body, the parse outcome (extracted text and the
  list of `href` attribute values, `none` for an anchor without `href`).
* `WebCrawler.crawl` mutates `self.visited` and `self.index`; the model threads
  a `Crawler` state explicitly and adds a ghost field `fetchLog` recording each
  URL passed to the fetcher, in order, at the exact program point where
  `requests.get(url)` is executed (immediately after the `visited` insertion).
* Python's unbounded recursion becomes structural recursion on a fuel argument;
  exhausted fuel returns the state unchanged, so every invariant proved for all
  fuel values is an invariant of every finite prefix of the Python recursion.
-/

/-! ### Character and list helpers (models of Python str primitives) -/

/-- ASCII alphabetic test, as in Python `c.isascii() and c.isalpha()`. -/
def isAsciiAlpha (c : Char) : Bool :=
  ('a' ≤ c && c ≤ 'z') || ('A' ≤ c && c ≤ 'Z')

/-- Membership in CPython's `scheme_chars`
(letters, digits and `+`, `-`, `.`). -/
def isSchemeChar (c : Char) : Bool :=
  isAsciiAlpha c || ('0' ≤ c && c ≤ '9') || c == '+' || c == '-' || c == '.'

/-- Python `s.split(sep, 1)`: split at the first occurrence of `sep`,
`none` when `sep` does not occur. -/
def listSplitFirst (sep : Char) : List Char → Option (List Char × List Char)
  | [] => none
  | c :: cs =>
    if c = sep then some ([], cs)
    else
      match listSplitFirst sep cs with
      | some (a, b) => some (c :: a, b)
      | none => none

/-- Python `s.split(sep)` for a one-character separator:
always returns a nonempty list of (possibly empty) pieces. -/
def splitOnChar (sep : Char) : List Char → List (List Char)
  | [] => [[]]
  | c :: cs =>
    if c = sep then [] :: splitOnChar sep cs
    else
      match splitOnChar sep cs with
      | h :: t => (c :: h) :: t
      | [] => [[c]]

/-- Python `sep.join(parts)` for a one-character separator. -/
def joinWithChar (sep : Char) : List (List Char) → List Char
  | [] => []
  | [p] => p
  | p :: ps => p ++ sep :: joinWithChar sep ps

/-- Boolean list-prefix test. -/
def isPrefixB : List Char → List Char → Bool
  | [], _ => true
  | _ :: _, [] => false
  | a :: as, b :: bs => a = b && isPrefixB as bs

/-- Boolean contiguous-substring test; `containsSub n h` models Python
`n in h` on strings. -/
def containsSub (needle : List Char) : List Char → Bool
  | [] => isPrefixB needle []
  | c :: t => isPrefixB needle (c :: t) || containsSub needle t

/-- Python `s.lower()` (ASCII range, which covers all strings in the claims). -/
def pyLower (s : String) : String :=
  (s.data.map Char.toLower).asString

/-! ### Model of `urllib.parse` (`urlsplit`, `urlunsplit`, `urljoin`) -/

/-- Result of CPython `urlsplit`: scheme, netloc, path, query, fragment. -/
structure SplitResult where
  scheme : List Char
  netloc : List Char
  path : List Char
  query : List Char
  fragment : List Char
deriving DecidableEq

/-- CPython `_splitnetloc`: the netloc runs to the first `/`, `?` or `#`. -/
def splitNetloc (l : List Char) : List Char × List Char :=
  (l.takeWhile (fun c => !(c == '/' || c == '?' || c == '#')),
   l.dropWhile (fun c => !(c == '/' || c == '?' || c == '#')))

/-- CPython `urlsplit(url, scheme=default)`: extract the scheme when the text
before the first `:` is a nonempty run of scheme characters starting with an
ASCII letter (the scheme is lowercased), then the `//`-introduced netloc, then
the fragment (first `#`), then the query (first `?`). -/
def urlsplitCore (url : List Char) (defaultScheme : List Char) : SplitResult :=
  let (scheme, rest) :=
    match listSplitFirst ':' url with
    | some (before, after) =>
      match before with
      | [] => (defaultScheme, url)
      | c0 :: _ =>
        if isAsciiAlpha c0 && before.all isSchemeChar then
          (before.map Char.toLower, after)
        else (defaultScheme, url)
    | none => (defaultScheme, url)
  let (netloc, rest2) :=
    match rest with
    | '/' :: '/' :: r => splitNetloc r
    | _ => ([], rest)
  let (rest3, fragment) :=
    match listSplitFirst '#' rest2 with
    | some (a, b) => (a, b)
    | none => (rest2, [])
  let (path, query) :=
    match listSplitFirst '?' rest3 with
    | some (a, b) => (a, b)
    | none => (rest3, [])
  ⟨scheme, netloc, path, query, fragment⟩

/-- CPython `urlunsplit`. -/
def urlunsplitCore (r : SplitResult) : List Char :=
  let url := r.path
  let url :=
    if r.netloc ≠ [] ∨ (url ≠ [] ∧ url.take 2 = ['/', '/']) then
      '/' :: '/' :: r.netloc ++
        (if url ≠ [] ∧ url.take 1 ≠ ['/'] then '/' :: url else url)
    else url
  let url := if r.scheme ≠ [] then r.scheme ++ ':' :: url else url
  let url := if r.query ≠ [] then url ++ '?' :: r.query else url
  if r.fragment ≠ [] then url ++ '#' :: r.fragment else url

/-- CPython `uses_relative`. -/
def usesRelative : List String :=
  ["", "ftp", "http", "gopher", "nntp", "imap", "wais", "file", "https",
   "shttp", "mms", "prospero", "rtsp", "rtspu", "sftp", "svn", "svn+ssh",
   "ws", "wss"]

/-- CPython `uses_netloc`. -/
def usesNetloc : List String :=
  ["", "ftp", "http", "gopher", "nntp", "telnet", "imap", "wais", "file",
   "mms", "https", "shttp", "snews", "prospero", "rtsp", "rtspu", "rsync",
   "svn", "svn+ssh", "sftp", "nfs", "git", "git+ssh", "ws", "wss",
   "itms-services"]

/-- Python `segments[1:-1] = filter(None, segments[1:-1])`: drop empty
segments, keeping the first and last elements untouched. -/
def filterMiddle (segs : List (List Char)) : List (List Char) :=
  match segs with
  | [] => []
  | [s] => [s]
  | s0 :: rest => s0 :: (rest.dropLast.filter (fun x => x ≠ [])) ++ [rest.getLast!]

/-- The `.`/`..` resolution loop of CPython `urljoin`. -/
def resolveSegments (segs : List (List Char)) : List (List Char) :=
  segs.foldl
    (fun acc seg =>
      if seg = ['.', '.'] then acc.dropLast
      else if seg = ['.'] then acc
      else acc ++ [seg]) []

/-- CPython `urljoin(base, url)`. -/
def urljoin (base url : String) : String :=
  if base = "" then url
  else if url = "" then base
  else
    let b := urlsplitCore base.data []
    let u := urlsplitCore url.data b.scheme
    if u.scheme ≠ b.scheme ∨ ¬ usesRelative.contains u.scheme.asString then url
    else if usesNetloc.contains u.scheme.asString ∧ u.netloc ≠ [] then
      (urlunsplitCore u).asString
    else
      let netloc := if usesNetloc.contains u.scheme.asString then b.netloc else u.netloc
      if u.path = [] then
        let query := if u.query = [] then b.query else u.query
        (urlunsplitCore ⟨u.scheme, netloc, b.path, query, u.fragment⟩).asString
      else
        let baseParts := splitOnChar '/' b.path
        let baseParts :=
          if baseParts.getLast! ≠ [] then baseParts.dropLast else baseParts
        let segments :=
          if u.path.take 1 = ['/'] then splitOnChar '/' u.path
          else filterMiddle (baseParts ++ splitOnChar '/' u.path)
        let resolved := resolveSegments segments
        let resolved :=
          if segments.getLast! = ['.'] ∨ segments.getLast! = ['.', '.'] then
            resolved ++ [[]]
          else resolved
        (urlunsplitCore ⟨u.scheme, netloc, joinWithChar '/' resolved, u.query, u.fragment⟩).asString

/-- `urlparse(url).netloc` as used by `main.py` (identical to `urlsplit`'s
netloc field; the parameters split of `urlparse` touches only the path). -/
def netlocOf (url : String) : String :=
  (urlsplitCore url.data []).netloc.asString

/-! ### The crawler state and environment (`WebCrawler` in `main.py`) -/

/-- What `requests.get` returns, as far as `crawl` reads it:
`contentType` is `response.headers.get('Content-Type')` (`none` when the
header is absent) and `text` is `response.text`. -/
structure Response where
  contentType : Option String
  text : String
deriving DecidableEq

/-- The external collaborators.  `fetch url = none` models `requests.get`
raising an exception; `parse body = none` models `BeautifulSoup`/`get_text`/
`find_all` raising.  `parse body = some (text, hrefs)` gives
`soup.get_text()` and the `link.get('href')` value of each anchor in order
(`none` for an anchor without an `href` attribute). -/
structure Env where
  fetch : String → Option Response
  parse : String → Option (String × List (Option String))

/-- The mutable state of a `WebCrawler` instance: `index` is the
insertion-ordered dict `self.index`, `visited` the set `self.visited` as the
list of its elements in insertion order, and `fetchLog` a ghost log recording
each URL passed to `requests.get`, in call order. -/
structure Crawler where
  index : List (String × String)
  visited : List String
  fetchLog : List String
deriving DecidableEq

/-- A freshly constructed `WebCrawler` (its `__init__`). -/
def emptyCrawler : Crawler := ⟨[], [], []⟩

/-- Python `base_url or url` where `base_url : Optional[str]`
(`None` and `""` are both falsy). -/
def pyOr (baseOpt : Option String) (url : String) : String :=
  match baseOpt with
  | none => url
  | some b => if b = "" then url else b

/-- Line 23-24 of `main.py`:
`'html' in response.headers.get('Content-Type', '').lower()`. -/
def isHtmlCT (contentType : Option String) : Bool :=
  containsSub "html".data (pyLower (contentType.getD "")).data

/-- Python dict assignment `d[k] = v` on an insertion-ordered
association list: overwrite in place when the key exists, else append. -/
def dictInsert (d : List (String × String)) (k v : String) : List (String × String) :=
  match d with
  | [] => [(k, v)]
  | (k', v') :: rest =>
    if k' = k then (k, v) :: rest else (k', v') :: dictInsert rest k v

/-- The body of the `for link in soup.find_all('a')` loop for one anchor
(lines 31-42 of `main.py`), parameterised by the recursive call `step`:
skip a missing or empty `href`; join against `base_url or url` ONLY when the
href already has a nonempty netloc (this is the source's actual condition);
recurse exactly when the netloc of the (possibly joined) href equals the
netloc of `base_url or url`. -/
def linkStep (step : String → String → Crawler → Crawler) (url : String)
    (baseOpt : Option String) (href? : Option String) (c : Crawler) : Crawler :=
  match href? with
  | none => c
  | some href0 =>
    if href0 = "" then c
    else
      let base := pyOr baseOpt url
      let href := if netlocOf href0 = "" then href0 else urljoin base href0
      if netlocOf href = netlocOf base then step href base c else c

/-- The anchor loop over the whole link list. -/
def crawlLinks (step : String → String → Crawler → Crawler) (url : String)
    (baseOpt : Option String) : List (Option String) → Crawler → Crawler
  | [], c => c
  | href? :: rest, c =>
    crawlLinks step url baseOpt rest (linkStep step url baseOpt href? c)

/-- `WebCrawler.crawl(url, base_url)` with explicit state and a fuel bound on
the recursion depth (exhausted fuel returns the state unchanged).  Order of
operations follows the source: the `visited` guard, insertion into `visited`,
the fetch attempt (logged in `fetchLog`; an exception returns, caught by the
`except` at this frame), the content-type gate, the parse (an exception again
returns via the frame's `except`), the index assignment, then the link loop,
whose recursive calls pass `base_url or url` as the new `base_url`. -/
def crawl (env : Env) : Nat → String → Option String → Crawler → Crawler
  | 0, _, _, c => c
  | Nat.succ fuel, url, baseOpt, c =>
    if url ∈ c.visited then c
    else
      let c1 : Crawler := ⟨c.index, c.visited ++ [url], c.fetchLog ++ [url]⟩
      match env.fetch url with
      | none => c1
      | some resp =>
        if isHtmlCT resp.contentType then
          match env.parse resp.text with
          | none => c1
          | some (text, hrefs) =>
            crawlLinks (fun href base acc => crawl env fuel href (some base) acc)
              url baseOpt hrefs ⟨dictInsert c1.index url text, c1.visited, c1.fetchLog⟩
        else c1

/-- `WebCrawler.search(keyword)` (lines 47-52): return, in index iteration
order, each URL whose text satisfies `keyword.lower() in text.lower()`. -/
def search (index : List (String × String)) (keyword : String) : List String :=
  match index with
  | [] => []
  | (url, text) :: rest =>
    if containsSub (pyLower keyword).data (pyLower text).data then
      url :: search rest keyword
    else search rest keyword

/-! ### Spec-side variant for the base-propagation claim -/

/-- One anchor step of `crawlSpecBase`, with the base URL a fixed string. -/
def linkStepB (step : String → Crawler → Crawler) (base : String)
    (href? : Option String) (c : Crawler) : Crawler :=
  match href? with
  | none => c
  | some href0 =>
    if href0 = "" then c
    else
      let href := if netlocOf href0 = "" then href0 else urljoin base href0
      if netlocOf href = netlocOf base then step href c else c

/-- The anchor loop of `crawlSpecBase`. -/
def crawlLinksB (step : String → Crawler → Crawler) (base : String) :
    List (Option String) → Crawler → Crawler
  | [], c => c
  | href? :: rest, c =>
    crawlLinksB step base rest (linkStepB step base href? c)

/-- Spec-side rendering of section 4.2 of the spec: the crawl where the base
URL is an explicit parameter "propagated unchanged through the whole
recursion", every resolution and scope comparison using exactly that base.
The claim that the source behaves this way is settled by comparing `crawl`
against this definition. -/
def crawlSpecBase (env : Env) : Nat → String → String → Crawler → Crawler
  | 0, _, _, c => c
  | Nat.succ fuel, url, base, c =>
    if url ∈ c.visited then c
    else
      let c1 : Crawler := ⟨c.index, c.visited ++ [url], c.fetchLog ++ [url]⟩
      match env.fetch url with
      | none => c1
      | some resp =>
        if isHtmlCT resp.contentType then
          match env.parse resp.text with
          | none => c1
          | some (text, hrefs) =>
            crawlLinksB (fun href acc => crawlSpecBase env fuel href base acc)
              base hrefs ⟨dictInsert c1.index url text, c1.visited, c1.fetchLog⟩
        else c1

/-! ### Concrete scenario environments (from the spec's scenarios and the
repository's test pages) -/

/-- The seed page of the spec's scenario and of `test_crawl_success`: an HTML
page whose anchors are the relative `/about` and an absolute external URL. -/
def envRelative : Env :=
  { fetch := fun u =>
      if u = "https://example.com" then some ⟨some "text/html", "B"⟩ else none,
    parse := fun b =>
      if b = "B" then some ("Welcome", [some "/about", some "https://www.external.com"])
      else none }

/-- Seed page answering with content-type `application/pdf`
(scenario of `test_non_html_content`). -/
def envPdf : Env :=
  { fetch := fun u =>
      if u = "https://example.com" then some ⟨some "application/pdf", ""⟩ else none,
    parse := fun _ => none }

/-- The page of `test_malformed_url`: one anchor with the broken scheme
`htp://example.com`, followed by a sibling same-domain anchor. -/
def envMalformed : Env :=
  { fetch := fun u =>
      if u = "https://example.com" then some ⟨some "text/html", "M"⟩
      else if u = "https://example.com/sib" then some ⟨some "text/html", "E"⟩
      else none,
    parse := fun b =>
      if b = "M" then some ("t", [some "htp://example.com", some "https://example.com/sib"])
      else if b = "E" then some ("leaf", [])
      else none }

/-- The self-referential page of `test_infinite_loop`: its single anchor is
its own URL. -/
def envSelfLoop : Env :=
  { fetch := fun u =>
      if u = "https://example.com" then some ⟨some "text/html", "S"⟩ else none,
    parse := fun b =>
      if b = "S" then some ("self", [some "https://example.com"]) else none }

/-- A seed whose first link fails to fetch and whose second link is a healthy
same-domain page: exercises continuation at siblings after an exception. -/
def envSiblings : Env :=
  { fetch := fun u =>
      if u = "https://example.com" then some ⟨some "text/html", "P"⟩
      else if u = "https://example.com/good" then some ⟨some "text/html", "G"⟩
      else none,
    parse := fun b =>
      if b = "P" then some ("root", [some "https://example.com/bad", some "https://example.com/good"])
      else if b = "G" then some ("leaf", [])
      else none }

/-- A response with no Content-Type header at all, over a body that the
parser could handle perfectly well. -/
def envNoContentType : Env :=
  { fetch := fun u =>
      if u = "https://example.com" then some ⟨none, "H"⟩ else none,
    parse := fun b =>
      if b = "H" then some ("hello", [some "https://example.com/next"]) else none }

/-! ### Unfolding equations for `crawl` (one per branch of the source) -/

/-- Line 16-17: an already-visited URL returns immediately, at any depth. -/
theorem crawl_mem_visited (env : Env) (fuel : Nat) (url : String)
    (baseOpt : Option String) (c : Crawler) (h : url ∈ c.visited) :
    crawl env fuel url baseOpt c = c := by
  cases fuel with
  | zero => rfl
  | succ fuel => simp [crawl, h]

/-- Lines 20-21 and 44-45: `requests.get` raising is caught at this frame;
only `visited` (and the fetch log) have grown. -/
theorem crawl_fetch_none (env : Env) (fuel : Nat) (url : String)
    (baseOpt : Option String) (c : Crawler)
    (hv : url ∉ c.visited) (hf : env.fetch url = none) :
    crawl env (Nat.succ fuel) url baseOpt c =
      ⟨c.index, c.visited ++ [url], c.fetchLog ++ [url]⟩ := by
  simp [crawl, hv, hf]

/-- Lines 23-26: a non-HTML content type is skipped before the index is
touched. -/
theorem crawl_not_html (env : Env) (fuel : Nat) (url : String)
    (baseOpt : Option String) (c : Crawler) (resp : Response)
    (hv : url ∉ c.visited) (hf : env.fetch url = some resp)
    (hct : isHtmlCT resp.contentType = false) :
    crawl env (Nat.succ fuel) url baseOpt c =
      ⟨c.index, c.visited ++ [url], c.fetchLog ++ [url]⟩ := by
  simp [crawl, hv, hf, hct]

/-- Line 28 raising inside the `try` is caught at this frame; the index is
not touched. -/
theorem crawl_parse_none (env : Env) (fuel : Nat) (url : String)
    (baseOpt : Option String) (c : Crawler) (resp : Response)
    (hv : url ∉ c.visited) (hf : env.fetch url = some resp)
    (hct : isHtmlCT resp.contentType = true) (hp : env.parse resp.text = none) :
    crawl env (Nat.succ fuel) url baseOpt c =
      ⟨c.index, c.visited ++ [url], c.fetchLog ++ [url]⟩ := by
  simp [crawl, hv, hf, hct, hp]

/-- Lines 28-42 on the success path: the text is indexed and the anchor loop
runs, each recursive call receiving `base_url or url`. -/
theorem crawl_html (env : Env) (fuel : Nat) (url : String)
    (baseOpt : Option String) (c : Crawler) (resp : Response)
    (text : String) (hrefs : List (Option String))
    (hv : url ∉ c.visited) (hf : env.fetch url = some resp)
    (hct : isHtmlCT resp.contentType = true)
    (hp : env.parse resp.text = some (text, hrefs)) :
    crawl env (Nat.succ fuel) url baseOpt c =
      crawlLinks (fun href base acc => crawl env fuel href (some base) acc)
        url baseOpt hrefs
        ⟨dictInsert c.index url text, c.visited ++ [url], c.fetchLog ++ [url]⟩ := by
  simp [crawl, hv, hf, hct, hp]

/-! ### Generic preservation lemmas -/

/-- A state predicate survives one anchor step provided it survives the
recursive call on an in-scope link. -/
theorem linkStep_preserve (P : Crawler → Prop)
    (step : String → String → Crawler → Crawler) (url : String)
    (baseOpt : Option String) (href? : Option String) (c : Crawler)
    (hstep : ∀ href c, P c → netlocOf href = netlocOf (pyOr baseOpt url) →
      P (step href (pyOr baseOpt url) c))
    (hc : P c) : P (linkStep step url baseOpt href? c) := by
  cases href? with
  | none => exact hc
  | some href0 =>
    simp only [linkStep]
    split
    · exact hc
    · by_cases hcond :
        netlocOf (if netlocOf href0 = "" then href0 else urljoin (pyOr baseOpt url) href0) =
          netlocOf (pyOr baseOpt url)
      · rw [if_pos hcond]; exact hstep _ _ hc hcond
      · rw [if_neg hcond]; exact hc

/-- A state predicate survives the whole anchor loop. -/
theorem crawlLinks_preserve (P : Crawler → Prop)
    (step : String → String → Crawler → Crawler) (url : String)
    (baseOpt : Option String)
    (hstep : ∀ href c, P c → netlocOf href = netlocOf (pyOr baseOpt url) →
      P (step href (pyOr baseOpt url) c)) :
    ∀ (links : List (Option String)) (c : Crawler),
      P c → P (crawlLinks step url baseOpt links c) := by
  intro links
  induction links with
  | nil => intro c hc; exact hc
  | cons href? rest ih =>
    intro c hc
    exact ih _ (linkStep_preserve P step url baseOpt href? c hstep hc)

/-- Master invariant lemma for `crawl`.  `P` is the state invariant; `F` is a
per-frame condition on `(url, base_url)` that is passed down to every
recursive call (any in-scope link yields a child frame whose URL is the
resolved link and whose `base_url` is this frame's `base_url or url`).  `P`
must survive the two state mutations of the source: inserting the URL into
`visited` just before the fetch, and the index assignment, which happens only
for a URL already in `visited` whose fetch succeeded with HTML content. -/
theorem crawl_preserve_gen (env : Env) (P : Crawler → Prop)
    (F : String → Option String → Prop)
    (hF : ∀ url baseOpt href, F url baseOpt →
      netlocOf href = netlocOf (pyOr baseOpt url) → F href (some (pyOr baseOpt url)))
    (hvisit : ∀ url baseOpt c, F url baseOpt → P c → url ∉ c.visited →
      P ⟨c.index, c.visited ++ [url], c.fetchLog ++ [url]⟩)
    (hindex : ∀ url baseOpt text c, F url baseOpt → P c → url ∈ c.visited →
      (∃ resp, env.fetch url = some resp ∧ isHtmlCT resp.contentType = true) →
      P ⟨dictInsert c.index url text, c.visited, c.fetchLog⟩) :
    ∀ (fuel : Nat) (url : String) (baseOpt : Option String) (c : Crawler),
      F url baseOpt → P c → P (crawl env fuel url baseOpt c) := by
  intro fuel
  induction fuel with
  | zero => intro url baseOpt c _ hc; exact hc
  | succ fuel ih =>
    intro url baseOpt c hfr hc
    by_cases hv : url ∈ c.visited
    · rw [crawl_mem_visited env _ url baseOpt c hv]; exact hc
    · have hc1 : P ⟨c.index, c.visited ++ [url], c.fetchLog ++ [url]⟩ :=
        hvisit url baseOpt c hfr hc hv
      cases hf : env.fetch url with
      | none => rw [crawl_fetch_none env fuel url baseOpt c hv hf]; exact hc1
      | some resp =>
        cases hct : isHtmlCT resp.contentType with
        | false => rw [crawl_not_html env fuel url baseOpt c resp hv hf hct]; exact hc1
        | true =>
          cases hp : env.parse resp.text with
          | none => rw [crawl_parse_none env fuel url baseOpt c resp hv hf hct hp]; exact hc1
          | some pr =>
            rw [crawl_html env fuel url baseOpt c resp pr.1 pr.2 hv hf hct (by rw [hp])]
            apply crawlLinks_preserve P _ url baseOpt
            · intro href cx hcx hnet
              exact ih href (some (pyOr baseOpt url)) cx (hF url baseOpt href hfr hnet) hcx
            · exact hindex url baseOpt pr.1
                ⟨c.index, c.visited ++ [url], c.fetchLog ++ [url]⟩ hfr hc1
                (by simp) ⟨resp, hf, hct⟩

/-! ### Small facts about the helpers -/

theorem pyOr_some (b url : String) : pyOr (some b) url = if b = "" then url else b := rfl

theorem nodup_append_singleton {l : List String} {a : String}
    (h : l.Nodup) (ha : a ∉ l) : (l ++ [a]).Nodup := by
  rw [List.nodup_append]
  refine ⟨h, List.nodup_singleton a, ?_⟩
  intro x hx hxa
  rw [List.mem_singleton] at hxa
  exact ha (hxa ▸ hx)

theorem mem_dictInsert {d : List (String × String)} {k v : String}
    {p : String × String} (h : p ∈ dictInsert d k v) : p ∈ d ∨ p = (k, v) := by
  induction d with
  | nil =>
    simp only [dictInsert, List.mem_singleton] at h
    exact Or.inr h
  | cons e rest ih =>
    obtain ⟨k1, v1⟩ := e
    simp only [dictInsert] at h
    by_cases hk : k1 = k
    · rw [if_pos hk] at h
      rcases List.mem_cons.mp h with h1 | h1
      · exact Or.inr h1
      · exact Or.inl (List.mem_cons_of_mem _ h1)
    · rw [if_neg hk] at h
      rcases List.mem_cons.mp h with h1 | h1
      · exact Or.inl (h1 ▸ List.mem_cons_self _ _)
      · rcases ih h1 with h2 | h2
        · exact Or.inl (List.mem_cons_of_mem _ h2)
        · exact Or.inr h2

theorem isPrefixB_iff (n : List Char) :
    ∀ h : List Char, isPrefixB n h = true ↔ ∃ post, h = n ++ post := by
  induction n with
  | nil => intro h; simp [isPrefixB]
  | cons a as ih =>
    intro h
    cases h with
    | nil => simp [isPrefixB]
    | cons b bs =>
      simp only [isPrefixB, Bool.and_eq_true, decide_eq_true_eq, ih]
      constructor
      · rintro ⟨rfl, post, rfl⟩
        exact ⟨post, rfl⟩
      · rintro ⟨post, hpost⟩
        injection hpost with h1 h2
        exact ⟨h1.symm, post, h2⟩

theorem containsSub_iff (n : List Char) :
    ∀ h : List Char, containsSub n h = true ↔ ∃ pre post, h = pre ++ n ++ post := by
  intro h
  induction h with
  | nil =>
    simp only [containsSub, isPrefixB_iff]
    constructor
    · rintro ⟨post, hp⟩
      exact ⟨[], post, hp⟩
    · rintro ⟨pre, post, hp⟩
      cases pre with
      | nil => exact ⟨post, hp⟩
      | cons x xs => simp at hp
  | cons c t ih =>
    simp only [containsSub, Bool.or_eq_true, isPrefixB_iff, ih]
    constructor
    · rintro (⟨post, hp⟩ | ⟨pre, post, hp⟩)
      · exact ⟨[], post, hp⟩
      · refine ⟨c :: pre, post, ?_⟩
        rw [hp]
        rfl
    · rintro ⟨pre, post, hp⟩
      cases pre with
      | nil => exact Or.inl ⟨post, hp⟩
      | cons x xs =>
        injection hp with h1 h2
        exact Or.inr ⟨xs, post, h2⟩

theorem containsSub_nil (h : List Char) : containsSub [] h = true := by
  cases h <;> simp [containsSub, isPrefixB]

/-! ### Claim theorems -/

/-- C2: over any environment, any fuel and any seed, a crawl run starting
from a fresh `WebCrawler` attempts exactly one fetch per URL it ever marks
visited — the fetch log coincides with the visited list (the source inserts
into `visited` and immediately issues the fetch, before any other I/O), and
both are duplicate-free, so no URL is fetched twice even under
self-reference or mutual reference. -/
theorem c2_visited_once_before_fetch (env : Env) (fuel : Nat) (seed : String) :
    (crawl env fuel seed none emptyCrawler).fetchLog =
      (crawl env fuel seed none emptyCrawler).visited
    ∧ (crawl env fuel seed none emptyCrawler).visited.Nodup
    ∧ (crawl env fuel seed none emptyCrawler).fetchLog.Nodup := by
  have h : (fun c : Crawler => c.fetchLog = c.visited ∧ c.visited.Nodup)
      (crawl env fuel seed none emptyCrawler) := by
    apply crawl_preserve_gen env
      (fun c : Crawler => c.fetchLog = c.visited ∧ c.visited.Nodup)
      (fun _ _ => True)
    · intro _ _ _ _ _
      trivial
    · intro url baseOpt c _ hc hv
      exact ⟨by rw [hc.1], nodup_append_singleton hc.2 hv⟩
    · intro url baseOpt text c _ hc _ _
      exact hc
    · trivial
    · exact ⟨rfl, List.nodup_nil⟩
  exact ⟨h.1, h.2, h.1 ▸ h.2⟩

/-- C3: every key of the index was placed in the visited set, and its fetch
returned a response whose content type passed the HTML test; URLs whose fetch
raised or whose content type was non-HTML never become index keys. -/
theorem c3_index_keys_fetched_html (env : Env) (fuel : Nat) (seed u t : String)
    (h : (u, t) ∈ (crawl env fuel seed none emptyCrawler).index) :
    u ∈ (crawl env fuel seed none emptyCrawler).visited
    ∧ ∃ resp, env.fetch u = some resp ∧ isHtmlCT resp.contentType = true := by
  have key : (fun c : Crawler => ∀ u t, (u, t) ∈ c.index →
      u ∈ c.visited ∧ ∃ resp, env.fetch u = some resp ∧ isHtmlCT resp.contentType = true)
      (crawl env fuel seed none emptyCrawler) := by
    apply crawl_preserve_gen env
      (fun c : Crawler => ∀ u t, (u, t) ∈ c.index →
        u ∈ c.visited ∧ ∃ resp, env.fetch u = some resp ∧ isHtmlCT resp.contentType = true)
      (fun _ _ => True)
    · intro _ _ _ _ _
      trivial
    · intro url baseOpt c _ hc _ u t hmem
      obtain ⟨h1, h2⟩ := hc u t hmem
      exact ⟨List.mem_append_left _ h1, h2⟩
    · intro url baseOpt text c _ hc hvis hex u t hmem
      rcases mem_dictInsert hmem with hm | hm
      · exact hc u t hm
      · injection hm with hm1 hm2
        subst hm1
        obtain ⟨resp, hf, hct⟩ := hex
        exact ⟨hvis, resp, hf, hct⟩
    · trivial
    · intro u t hmem
      simp [emptyCrawler] at hmem
  exact key u t h

/-! ### Search lemmas (for C4) -/

theorem search_sublist (idx : List (String × String)) (k : String) :
    (search idx k).Sublist (idx.map Prod.fst) := by
  induction idx with
  | nil => simp [search]
  | cons e rest ih =>
    obtain ⟨url, text⟩ := e
    simp only [search, List.map_cons]
    split
    · exact List.Sublist.cons₂ url ih
    · exact List.Sublist.cons url ih

theorem mem_search_iff (idx : List (String × String)) (k u : String) :
    u ∈ search idx k ↔ ∃ t, (u, t) ∈ idx ∧
      ∃ pre post, (pyLower t).data = pre ++ (pyLower k).data ++ post := by
  induction idx with
  | nil => simp [search]
  | cons e rest ih =>
    obtain ⟨url, text⟩ := e
    simp only [search]
    by_cases hc : containsSub (pyLower k).data (pyLower text).data = true
    · rw [if_pos hc]
      simp only [List.mem_cons, ih]
      constructor
      · rintro (rfl | ⟨t, ht, hsub⟩)
        · exact ⟨text, Or.inl rfl, (containsSub_iff _ _).mp hc⟩
        · exact ⟨t, Or.inr ht, hsub⟩
      · rintro ⟨t, hpair | ht, hsub⟩
        · injection hpair with h1 h2
          exact Or.inl h1
        · exact Or.inr ⟨t, ht, hsub⟩
    · rw [if_neg hc]
      rw [ih]
      constructor
      · rintro ⟨t, ht, hsub⟩
        exact ⟨t, List.mem_cons_of_mem _ ht, hsub⟩
      · rintro ⟨t, hmem, hsub⟩
        rcases List.mem_cons.mp hmem with hpair | ht
        · injection hpair with h1 h2
          subst h2
          exact absurd ((containsSub_iff _ _).mpr hsub) hc
        · exact ⟨t, ht, hsub⟩

theorem search_empty_keyword (idx : List (String × String)) :
    search idx "" = idx.map Prod.fst := by
  induction idx with
  | nil => rfl
  | cons e rest ih =>
    obtain ⟨url, text⟩ := e
    have hzero : containsSub (pyLower "").data (pyLower text).data = true :=
      containsSub_nil (pyLower text).data
    simp only [search, List.map_cons]
    rw [if_pos hzero, ih]

/-- C4: search returns exactly the URLs whose indexed text contains the
keyword as a contiguous case-insensitive substring (both sides lowercased, so
occurrence count is irrelevant), the result is a sublist of the index's key
sequence (index iteration order), keys unique in the index appear at most
once in the result, and the empty keyword returns every key. -/
theorem c4_search_characterization (idx : List (String × String)) (k : String) :
    (∀ u, u ∈ search idx k ↔ ∃ t, (u, t) ∈ idx ∧
        ∃ pre post, (pyLower t).data = pre ++ (pyLower k).data ++ post)
    ∧ (search idx k).Sublist (idx.map Prod.fst)
    ∧ ((idx.map Prod.fst).Nodup → (search idx k).Nodup)
    ∧ search idx "" = idx.map Prod.fst :=
  ⟨fun u => mem_search_iff idx k u, search_sublist idx k,
   fun h => (search_sublist idx k).nodup h, search_empty_keyword idx⟩

/-- Witness for C4 at a concrete index: the Nodup hypothesis discharged on a
two-entry index; only the page whose text contains the keyword is returned. -/
theorem c4_search_witness :
    (["page1", "page2"] : List String).Nodup
    ∧ (search [("page1", "This has the keyword"), ("page2", "nothing here")] "KEYword").Nodup
    ∧ search [("page1", "This has the keyword"), ("page2", "nothing here")] "KEYword" = ["page1"] :=
  ⟨by decide,
   (c4_search_characterization
     [("page1", "This has the keyword"), ("page2", "nothing here")] "KEYword").2.2.1
     (by decide),
   by decide⟩

/-- C8: a URL whose network location differs from the seed's never enters the
visited set, is never passed to the fetcher, and never becomes an index key,
over any environment and any fuel. -/
theorem c8_external_domain_never_entered (env : Env) (fuel : Nat) (seed u : String)
    (h : netlocOf u ≠ netlocOf seed) :
    u ∉ (crawl env fuel seed none emptyCrawler).visited
    ∧ u ∉ (crawl env fuel seed none emptyCrawler).fetchLog
    ∧ u ∉ (crawl env fuel seed none emptyCrawler).index.map Prod.fst := by
  have key : (fun c : Crawler =>
      (∀ x ∈ c.visited, netlocOf x = netlocOf seed) ∧
      (∀ x ∈ c.fetchLog, netlocOf x = netlocOf seed) ∧
      (∀ x t, (x, t) ∈ c.index → netlocOf x = netlocOf seed))
      (crawl env fuel seed none emptyCrawler) := by
    apply crawl_preserve_gen env
      (fun c : Crawler =>
        (∀ x ∈ c.visited, netlocOf x = netlocOf seed) ∧
        (∀ x ∈ c.fetchLog, netlocOf x = netlocOf seed) ∧
        (∀ x t, (x, t) ∈ c.index → netlocOf x = netlocOf seed))
      (fun url baseOpt => netlocOf url = netlocOf seed ∧
        netlocOf (pyOr baseOpt url) = netlocOf seed)
    · intro url baseOpt href hfr hnet
      refine ⟨hnet.trans hfr.2, ?_⟩
      by_cases hb : pyOr baseOpt url = ""
      · have hh : pyOr (some (pyOr baseOpt url)) href = href := by
          rw [pyOr_some, if_pos hb]
        rw [hh]
        exact hnet.trans hfr.2
      · have hh : pyOr (some (pyOr baseOpt url)) href = pyOr baseOpt url := by
          rw [pyOr_some, if_neg hb]
        rw [hh]
        exact hfr.2
    · intro url baseOpt c hfr hc hv
      refine ⟨?_, ?_, hc.2.2⟩
      · intro x hx
        rcases List.mem_append.mp hx with hx | hx
        · exact hc.1 x hx
        · rw [List.mem_singleton] at hx
          subst hx
          exact hfr.1
      · intro x hx
        rcases List.mem_append.mp hx with hx | hx
        · exact hc.2.1 x hx
        · rw [List.mem_singleton] at hx
          subst hx
          exact hfr.1
    · intro url baseOpt text c hfr hc hvis hex
      refine ⟨hc.1, hc.2.1, ?_⟩
      intro x t hmem
      rcases mem_dictInsert hmem with hm | hm
      · exact hc.2.2 x t hm
      · injection hm with h1 h2
        subst h1
        exact hfr.1
    · exact ⟨rfl, rfl⟩
    · refine ⟨?_, ?_, ?_⟩ <;> simp [emptyCrawler]
  refine ⟨?_, ?_, ?_⟩
  · intro hu
    exact h (key.1 u hu)
  · intro hu
    exact h (key.2.1 u hu)
  · intro hu
    rcases List.mem_map.mp hu with ⟨p, hp, hfst⟩
    exact h (hfst ▸ key.2.2 p.1 p.2 hp)

/-- Witness for C8: the external URL of the spec's scenario is absent from
every structure after crawling the scenario seed page. -/
theorem c8_witness :
    netlocOf "https://www.external.com" ≠ netlocOf "https://example.com"
    ∧ ("https://www.external.com" ∉
        (crawl envRelative 4 "https://example.com" none emptyCrawler).visited
      ∧ "https://www.external.com" ∉
        (crawl envRelative 4 "https://example.com" none emptyCrawler).fetchLog
      ∧ "https://www.external.com" ∉
        (crawl envRelative 4 "https://example.com" none emptyCrawler).index.map Prod.fst) :=
  ⟨by decide,
   c8_external_domain_never_entered envRelative 4 "https://example.com"
     "https://www.external.com" (by decide)⟩

/-! ### Base-propagation lemmas (for C9) -/

theorem linkStep_eq_B (step : String → String → Crawler → Crawler)
    (stepB : String → Crawler → Crawler) (url : String) (baseOpt : Option String)
    (base : String) (href? : Option String) (c : Crawler)
    (hbase : pyOr baseOpt url = base)
    (hstep : ∀ href c, step href base c = stepB href c) :
    linkStep step url baseOpt href? c = linkStepB stepB base href? c := by
  cases href? with
  | none => rfl
  | some href0 =>
    simp only [linkStep, linkStepB, hbase]
    split
    · rfl
    · by_cases hcond :
        netlocOf (if netlocOf href0 = "" then href0 else urljoin base href0) = netlocOf base
      · rw [if_pos hcond, if_pos hcond, hstep]
      · rw [if_neg hcond, if_neg hcond]

theorem crawlLinks_eq_B (step : String → String → Crawler → Crawler)
    (stepB : String → Crawler → Crawler) (url : String) (baseOpt : Option String)
    (base : String) (hbase : pyOr baseOpt url = base)
    (hstep : ∀ href c, step href base c = stepB href c) :
    ∀ (links : List (Option String)) (c : Crawler),
      crawlLinks step url baseOpt links c = crawlLinksB stepB base links c := by
  intro links
  induction links with
  | nil => intro c; rfl
  | cons href? rest ih =>
    intro c
    simp only [crawlLinks, crawlLinksB]
    rw [linkStep_eq_B step stepB url baseOpt base href? c hbase hstep, ih]

theorem crawlSpecBase_mem_visited (env : Env) (fuel : Nat) (url base : String)
    (c : Crawler) (h : url ∈ c.visited) :
    crawlSpecBase env fuel url base c = c := by
  cases fuel with
  | zero => rfl
  | succ fuel => simp [crawlSpecBase, h]

theorem crawlSpecBase_fetch_none (env : Env) (fuel : Nat) (url base : String)
    (c : Crawler) (hv : url ∉ c.visited) (hf : env.fetch url = none) :
    crawlSpecBase env (Nat.succ fuel) url base c =
      ⟨c.index, c.visited ++ [url], c.fetchLog ++ [url]⟩ := by
  simp [crawlSpecBase, hv, hf]

theorem crawlSpecBase_not_html (env : Env) (fuel : Nat) (url base : String)
    (c : Crawler) (resp : Response)
    (hv : url ∉ c.visited) (hf : env.fetch url = some resp)
    (hct : isHtmlCT resp.contentType = false) :
    crawlSpecBase env (Nat.succ fuel) url base c =
      ⟨c.index, c.visited ++ [url], c.fetchLog ++ [url]⟩ := by
  simp [crawlSpecBase, hv, hf, hct]

theorem crawlSpecBase_parse_none (env : Env) (fuel : Nat) (url base : String)
    (c : Crawler) (resp : Response)
    (hv : url ∉ c.visited) (hf : env.fetch url = some resp)
    (hct : isHtmlCT resp.contentType = true) (hp : env.parse resp.text = none) :
    crawlSpecBase env (Nat.succ fuel) url base c =
      ⟨c.index, c.visited ++ [url], c.fetchLog ++ [url]⟩ := by
  simp [crawlSpecBase, hv, hf, hct, hp]

theorem crawlSpecBase_html (env : Env) (fuel : Nat) (url base : String)
    (c : Crawler) (resp : Response) (text : String) (hrefs : List (Option String))
    (hv : url ∉ c.visited) (hf : env.fetch url = some resp)
    (hct : isHtmlCT resp.contentType = true)
    (hp : env.parse resp.text = some (text, hrefs)) :
    crawlSpecBase env (Nat.succ fuel) url base c =
      crawlLinksB (fun href acc => crawlSpecBase env fuel href base acc)
        base hrefs
        ⟨dictInsert c.index url text, c.visited ++ [url], c.fetchLog ++ [url]⟩ := by
  simp [crawlSpecBase, hv, hf, hct, hp]

theorem crawl_some_base_eq_spec (env : Env) :
    ∀ (fuel : Nat) (url b : String) (c : Crawler), b ≠ "" →
      crawl env fuel url (some b) c = crawlSpecBase env fuel url b c := by
  intro fuel
  induction fuel with
  | zero => intro url b c _; rfl
  | succ fuel ih =>
    intro url b c hb
    have hbase : pyOr (some b) url = b := by rw [pyOr_some, if_neg hb]
    by_cases hv : url ∈ c.visited
    · rw [crawl_mem_visited env _ url (some b) c hv,
          crawlSpecBase_mem_visited env _ url b c hv]
    · cases hf : env.fetch url with
      | none =>
        rw [crawl_fetch_none env fuel url (some b) c hv hf,
            crawlSpecBase_fetch_none env fuel url b c hv hf]
      | some resp =>
        cases hct : isHtmlCT resp.contentType with
        | false =>
          rw [crawl_not_html env fuel url (some b) c resp hv hf hct,
              crawlSpecBase_not_html env fuel url b c resp hv hf hct]
        | true =>
          cases hp : env.parse resp.text with
          | none =>
            rw [crawl_parse_none env fuel url (some b) c resp hv hf hct hp,
                crawlSpecBase_parse_none env fuel url b c resp hv hf hct hp]
          | some pr =>
            obtain ⟨text, hrefs⟩ := pr
            rw [crawl_html env fuel url (some b) c resp text hrefs hv hf hct hp,
                crawlSpecBase_html env fuel url b c resp text hrefs hv hf hct hp]
            exact crawlLinks_eq_B
              (fun href base acc => crawl env fuel href (some base) acc)
              (fun href acc => crawlSpecBase env fuel href b acc)
              url (some b) b hbase (fun href cx => ih href b cx hb) hrefs _

/-- C9: with a nonempty seed, the crawl coincides with `crawlSpecBase`, the
variant in which the original seed is threaded unchanged as the base URL of
every recursive invocation — `base_url or url` always evaluates to the seed,
so resolution and the in-scope comparison at any depth use the seed's
domain, never the current page's URL. -/
theorem c9_base_propagated_unchanged (env : Env) (fuel : Nat) (seed : String)
    (c : Crawler) (h : seed ≠ "") :
    crawl env fuel seed none c = crawlSpecBase env fuel seed seed c := by
  cases fuel with
  | zero => rfl
  | succ fuel =>
    by_cases hv : seed ∈ c.visited
    · rw [crawl_mem_visited env _ seed none c hv,
          crawlSpecBase_mem_visited env _ seed seed c hv]
    · cases hf : env.fetch seed with
      | none =>
        rw [crawl_fetch_none env fuel seed none c hv hf,
            crawlSpecBase_fetch_none env fuel seed seed c hv hf]
      | some resp =>
        cases hct : isHtmlCT resp.contentType with
        | false =>
          rw [crawl_not_html env fuel seed none c resp hv hf hct,
              crawlSpecBase_not_html env fuel seed seed c resp hv hf hct]
        | true =>
          cases hp : env.parse resp.text with
          | none =>
            rw [crawl_parse_none env fuel seed none c resp hv hf hct hp,
                crawlSpecBase_parse_none env fuel seed seed c resp hv hf hct hp]
          | some pr =>
            obtain ⟨text, hrefs⟩ := pr
            rw [crawl_html env fuel seed none c resp text hrefs hv hf hct hp,
                crawlSpecBase_html env fuel seed seed c resp text hrefs hv hf hct hp]
            exact crawlLinks_eq_B
              (fun href base acc => crawl env fuel href (some base) acc)
              (fun href acc => crawlSpecBase env fuel href seed acc)
              seed none seed rfl
              (fun href cx => crawl_some_base_eq_spec env fuel href seed cx h) hrefs _

/-- Witness for C9 on the self-loop environment with a nonempty seed. -/
theorem c9_witness :
    ("https://example.com" : String) ≠ ""
    ∧ crawl envSelfLoop 3 "https://example.com" none emptyCrawler =
        crawlSpecBase envSelfLoop 3 "https://example.com" "https://example.com" emptyCrawler :=
  ⟨by decide,
   c9_base_propagated_unchanged envSelfLoop 3 "https://example.com" emptyCrawler (by decide)⟩

/-- C6: crawling the self-referential page of `test_infinite_loop` (its only
anchor resolves to its own URL, the seed itself) leaves exactly one URL in
the visited set and exactly one fetch in the log, for every positive
recursion budget — the visited guard stops the cycle, so the recursion
terminates without re-fetching. -/
theorem c6_self_reference_terminates (fuel : Nat) (h : 1 ≤ fuel) :
    (crawl envSelfLoop fuel "https://example.com" none emptyCrawler).visited =
      ["https://example.com"]
    ∧ (crawl envSelfLoop fuel "https://example.com" none emptyCrawler).fetchLog =
      ["https://example.com"] := by
  cases fuel with
  | zero => exact absurd h (by decide)
  | succ n =>
    have step1 : crawl envSelfLoop (Nat.succ n) "https://example.com" none emptyCrawler =
        crawl envSelfLoop n "https://example.com" (some "https://example.com")
          ⟨[("https://example.com", "self")], ["https://example.com"],
           ["https://example.com"]⟩ := rfl
    rw [step1, crawl_mem_visited envSelfLoop n "https://example.com"
      (some "https://example.com")
      ⟨[("https://example.com", "self")], ["https://example.com"], ["https://example.com"]⟩
      (by decide)]
    exact ⟨rfl, rfl⟩

/-- Witness for C6 at fuel 4. -/
theorem c6_witness :
    1 ≤ 4
    ∧ (crawl envSelfLoop 4 "https://example.com" none emptyCrawler).visited =
        ["https://example.com"] :=
  ⟨by decide, (c6_self_reference_terminates 4 (by decide)).1⟩

/-- C7: an exception during fetch (or parse) is caught at that URL's frame:
the call returns normally with the index untouched and only the visited set
and fetch log extended by that single URL (logged once, never retried); and
on a concrete page whose first link's fetch raises, the second link is still
crawled and indexed — the failure aborts neither siblings nor ancestors, and
the run stops only when no unvisited in-scope links remain. -/
theorem c7_exceptions_frame_local :
    (∀ (env : Env) (fuel : Nat) (url : String) (baseOpt : Option String) (c : Crawler),
      url ∉ c.visited → env.fetch url = none →
      crawl env (Nat.succ fuel) url baseOpt c =
        ⟨c.index, c.visited ++ [url], c.fetchLog ++ [url]⟩)
    ∧ (∀ (env : Env) (fuel : Nat) (url : String) (baseOpt : Option String)
        (c : Crawler) (resp : Response),
      url ∉ c.visited → env.fetch url = some resp →
      isHtmlCT resp.contentType = true → env.parse resp.text = none →
      crawl env (Nat.succ fuel) url baseOpt c =
        ⟨c.index, c.visited ++ [url], c.fetchLog ++ [url]⟩)
    ∧ (crawl envSiblings 5 "https://example.com" none emptyCrawler).visited =
        ["https://example.com", "https://example.com/bad", "https://example.com/good"]
    ∧ (crawl envSiblings 5 "https://example.com" none emptyCrawler).index =
        [("https://example.com", "root"), ("https://example.com/good", "leaf")] := by
  refine ⟨?_, ?_, by decide, by decide⟩
  · intro env fuel url baseOpt c hv hf
    exact crawl_fetch_none env fuel url baseOpt c hv hf
  · intro env fuel url baseOpt c resp hv hf hct hp
    exact crawl_parse_none env fuel url baseOpt c resp hv hf hct hp

/-- Witness for C7: the failing link's own frame, run in isolation. -/
theorem c7_witness :
    "https://example.com/bad" ∉ emptyCrawler.visited
    ∧ envSiblings.fetch "https://example.com/bad" = none
    ∧ crawl envSiblings (Nat.succ 2) "https://example.com/bad" none emptyCrawler =
        ⟨[], ["https://example.com/bad"], ["https://example.com/bad"]⟩ :=
  ⟨by decide, by rfl,
   c7_exceptions_frame_local.1 envSiblings 2 "https://example.com/bad" none emptyCrawler
     (by decide) (by rfl)⟩

/-- C10: given an unvisited URL whose fetch returned a response, the crawl
proceeds to parse, index and follow links exactly when `isHtmlCT` of the
Content-Type header holds — the source's test, true iff the lowercased
header value contains "html" — and otherwise records the visit and stops;
a response with no Content-Type header defaults to the empty string, so it
is always treated as non-HTML, regardless of its body. -/
theorem c10_content_type_gate (env : Env) (fuel : Nat) (url : String)
    (baseOpt : Option String) (c : Crawler) (resp : Response)
    (hv : url ∉ c.visited) (hf : env.fetch url = some resp) :
    (isHtmlCT resp.contentType = false →
      crawl env (Nat.succ fuel) url baseOpt c =
        ⟨c.index, c.visited ++ [url], c.fetchLog ++ [url]⟩)
    ∧ (∀ text hrefs, isHtmlCT resp.contentType = true →
        env.parse resp.text = some (text, hrefs) →
        crawl env (Nat.succ fuel) url baseOpt c =
          crawlLinks (fun href base acc => crawl env fuel href (some base) acc)
            url baseOpt hrefs
            ⟨dictInsert c.index url text, c.visited ++ [url], c.fetchLog ++ [url]⟩)
    ∧ (resp.contentType = none → isHtmlCT resp.contentType = false) := by
  refine ⟨?_, ?_, ?_⟩
  · intro hct
    exact crawl_not_html env fuel url baseOpt c resp hv hf hct
  · intro text hrefs hct hp
    exact crawl_html env fuel url baseOpt c resp text hrefs hv hf hct hp
  · intro hnone
    rw [hnone]
    rfl

/-- Witness for C10: a header-less response over a parseable body with a
same-domain link is skipped — nothing indexed, the link never followed. -/
theorem c10_witness :
    "https://example.com" ∉ emptyCrawler.visited
    ∧ envNoContentType.fetch "https://example.com" = some ⟨none, "H"⟩
    ∧ envNoContentType.parse "H" = some ("hello", [some "https://example.com/next"])
    ∧ crawl envNoContentType (Nat.succ 3) "https://example.com" none emptyCrawler =
        ⟨[], ["https://example.com"], ["https://example.com"]⟩ :=
  ⟨by decide, by rfl, by rfl,
   (c10_content_type_gate envNoContentType 3 "https://example.com" none emptyCrawler
      ⟨none, "H"⟩ (by decide) (by rfl)).1 (by rfl)⟩

/-- C1 fails on the code: line 34 of the source joins an href against the
base only when the href ALREADY has a nonempty netloc, so the relative
`/about` of the scenario page is never resolved; its netloc stays empty,
the in-scope comparison against `example.com` fails, and it is never
visited.  The crawl of the scenario seed ends with the seed alone in the
visited set, not {seed, seed+"/about"} as the claim requires. -/
theorem c1_relative_href_dropped :
    (crawl envRelative 5 "https://example.com" none emptyCrawler).visited =
      ["https://example.com"]
    ∧ "https://example.com/about" ∉
      (crawl envRelative 5 "https://example.com" none emptyCrawler).visited
    ∧ netlocOf "/about" = "" :=
  ⟨by decide, by decide, by decide⟩

/-- C5 fails on the code: `htp://example.com` — the broken link that
`test_malformed_url` says "should not crawl" — parses with netloc
`example.com`, equal to the base's, so the source passes it to `crawl`: it
enters the visited set and is handed to the fetcher (whose exception is then
caught), though it never becomes an index key; the sibling link after it is
still crawled. -/
theorem c5_malformed_href_enters_visited :
    "htp://example.com" ∈
      (crawl envMalformed 5 "https://example.com" none emptyCrawler).visited
    ∧ "htp://example.com" ∈
      (crawl envMalformed 5 "https://example.com" none emptyCrawler).fetchLog
    ∧ "htp://example.com" ∉
      (crawl envMalformed 5 "https://example.com" none emptyCrawler).index.map Prod.fst
    ∧ "https://example.com/sib" ∈
      (crawl envMalformed 5 "https://example.com" none emptyCrawler).visited :=
  ⟨by decide, by decide, by decide, by decide⟩

/-- Witness for C3: applied on the scenario page (whose seed is indexed), and
the pdf scenario alongside — a non-HTML seed stays visited but unindexed. -/
theorem c3_witness :
    (("https://example.com", "Welcome") ∈
        (crawl envRelative 5 "https://example.com" none emptyCrawler).index
      ∧ ("https://example.com" ∈
          (crawl envRelative 5 "https://example.com" none emptyCrawler).visited
        ∧ ∃ resp, envRelative.fetch "https://example.com" = some resp
            ∧ isHtmlCT resp.contentType = true))
    ∧ (crawl envPdf 3 "https://example.com" none emptyCrawler).index = []
    ∧ (crawl envPdf 3 "https://example.com" none emptyCrawler).visited =
        ["https://example.com"] :=
  ⟨⟨by decide,
    c3_index_keys_fetched_html envRelative 5 "https://example.com" "https://example.com"
      "Welcome" (by decide)⟩,
   by decide, by decide⟩
